import Mathlib

/-
Verification development for the Design Studio backend (src/main.py).

The repository is a FastAPI service over MongoDB.  We give a shallow
embedding of the pieces the specification talks about:

* BSON-like values (`Value`) and documents (`Doc`, an insertion-ordered
  association list, matching Python dict semantics: assignment to an
  existing key keeps its position, assignment to a new key appends).
* The serializer `serialize_doc` (main.py, lines 35-44).
* The four collections kept in MongoDB, as a `Store`.
* The Mongo single-document operations the handlers use
  (`find_one`, `find` + `limit`, `update_one` with `$push`/`$set`),
  modelled from MongoDB's documented behaviour for the filter/update
  shapes that occur in main.py.
* The handlers named by the claims: `list_products`, `featured_products`,
  `get_product`, `checkout`, `list_projects`, `create_project`,
  `upload_draft`, `add_comment`, `approve_project`.

`database.py` (providing `db`, `create_document`, `get_documents`) is not
under src/; those two functions are modelled from the spec's Document
Store Adapter contract (section 4.1) and are marked as such below.

Time is abstract: a `datetime.now(timezone.utc)` result is modelled as a
`Nat` tick passed to the handler, and `isoformat` as an injective
rendering of the tick.  ObjectIds are abstract `Nat`s; the 24-hex-digit
string syntax accepted by `bson.ObjectId` is modelled exactly.
Python floats (price, rating, subtotal) are only ever copied or compared
by the code under consideration, never computed with, so they are
modelled as integers carried opaquely in `Value.vNum`.
-/

/-- BSON-like values stored in documents. -/
inductive Value where
  | vStr (s : String)
  | vNum (n : Int)
  | vBool (b : Bool)
  | vDt (t : Nat)
  | vOid (n : Nat)
  | vNull
  | vList (l : List Value)
  | vDoc (d : List (String × Value))

mutual

/-- Structural equality on values, used to model Mongo equality filters. -/
def Value.beq : Value → Value → Bool
  | .vStr a, .vStr b => a == b
  | .vNum a, .vNum b => a == b
  | .vBool a, .vBool b => a == b
  | .vDt a, .vDt b => a == b
  | .vOid a, .vOid b => a == b
  | .vNull, .vNull => true
  | .vList a, .vList b => Value.beqList a b
  | .vDoc a, .vDoc b => Value.beqPairs a b
  | _, _ => false

/-- Equality of value lists (componentwise `Value.beq`). -/
def Value.beqList : List Value → List Value → Bool
  | [], [] => true
  | x :: xs, y :: ys => Value.beq x y && Value.beqList xs ys
  | _, _ => false

/-- Equality of keyed value lists (componentwise `Value.beq`). -/
def Value.beqPairs : List (String × Value) → List (String × Value) → Bool
  | [], [] => true
  | (k1, v1) :: xs, (k2, v2) :: ys => k1 == k2 && Value.beq v1 v2 && Value.beqPairs xs ys
  | _, _ => false

end

instance : BEq Value := ⟨Value.beq⟩

/-- Documents are insertion-ordered key/value lists, as Python dicts are. -/
abbrev Doc := List (String × Value)

/-- Dict lookup: the value at a key, if present. -/
def Doc.get : Doc → String → Option Value
  | [], _ => none
  | (k, v) :: rest, key => if k = key then some v else Doc.get rest key

/-- Dict assignment `d[key] = val`: replaces in place if the key exists,
otherwise appends at the end (Python insertion-order semantics). -/
def Doc.set : Doc → String → Value → Doc
  | [], key, val => [(key, val)]
  | (k, v) :: rest, key, val =>
      if k = key then (k, val) :: rest else (k, v) :: Doc.set rest key val

/-- Dict `pop(key, None)`: removes the key if present. -/
def Doc.erase : Doc → String → Doc
  | [], _ => []
  | (k, v) :: rest, key => if k = key then rest else (k, v) :: Doc.erase rest key

/-- Injective rendering of an abstract timestamp, modelling
`datetime.isoformat()`. -/
def isoformat (t : Nat) : String := "1970-01-01T00:00:00+" ++ toString t

/-- Rendering of an abstract ObjectId, modelling `str(ObjectId)`.  The
only property the code relies on is that it is a plain string form of
the identifier; it is injective and never equal to "None". -/
def oidStr (n : Nat) : String := "oid" ++ toString n

/-- Python `str()` applied to `doc.get("_id")` in `serialize_doc`:
`str(None) = "None"` when the key is absent.  In this system `_id` is
always an ObjectId; the remaining cases are given plausible renderings
for totality. -/
def pyStr : Option Value → String
  | none => "None"
  | some (.vOid n) => oidStr n
  | some (.vStr s) => s
  | some (.vNum n) => toString n
  | some (.vBool b) => if b then "True" else "False"
  | some (.vDt t) => isoformat t
  | some .vNull => "None"
  | some (.vList _) => "[...]"
  | some (.vDoc _) => "{...}"

/-- The body of the `isinstance(v, datetime)` conversion in
`serialize_doc`: datetimes become their ISO string, everything else is
untouched. -/
def stringifyTimes (v : Value) : Value :=
  match v with
  | .vDt t => .vStr (isoformat t)
  | _ => v

/-- The `for k, v in list(doc.items())` loop of `serialize_doc`:
reassigning `doc[k]` keeps each entry's position, so the loop is a map
over the entries. -/
def stringifyEntries (d : Doc) : Doc :=
  d.map (fun kv => (kv.1, stringifyTimes kv.2))

/-- serialize_doc (main.py lines 35-44): on a non-empty document, set
`doc["id"] = str(doc.get("_id"))`, pop `"_id"`, then convert every
top-level datetime value to its ISO string.  An empty (falsy) document
is returned unchanged. -/
def serialize_doc (doc : Doc) : Doc :=
  match doc with
  | [] => []
  | _ =>
    let d1 := Doc.set doc "id" (Value.vStr (pyStr (Doc.get doc "_id")))
    let d2 := Doc.erase d1 "_id"
    stringifyEntries d2

/-- ASCII lower-casing of a character (`A`-`Z` shifted to `a`-`z`). -/
def charLower (c : Char) : Char :=
  if 'A' ≤ c && c ≤ 'Z' then Char.ofNat (c.toNat + 32) else c

/-- Lower-casing of a character list. -/
def lowerChars (l : List Char) : List Char := l.map charLower

/-- Does `needle` occur at the head of `hay`? -/
def charsHavePre : List Char → List Char → Bool
  | [], _ => true
  | _ :: _, [] => false
  | a :: as, b :: bs => a == b && charsHavePre as bs

/-- Does `needle` occur anywhere inside `hay`? -/
def charsContain (hay needle : List Char) : Bool :=
  match hay with
  | [] => charsHavePre needle []
  | _ :: rest => charsHavePre needle hay || charsContain rest needle

/-- Modelled from the spec: case-insensitive substring matching.  This
is the semantics of the MongoDB title filter
`{"$regex": q, "$options": "i"}` built in `list_products`; MongoDB
itself is outside the repository and `database.py` (which receives the
filter) is not under src/, so the behaviour is taken from the spec's
words: "free-text query matched case-insensitively as a substring
against title". -/
def containsCI (t pat : String) : Bool :=
  charsContain (lowerChars t.data) (lowerChars pat.data)

/-- One hex digit's numeric value. -/
def hexDigitVal (c : Char) : Nat :=
  if '0' ≤ c && c ≤ '9' then c.toNat - '0'.toNat
  else if 'a' ≤ c && c ≤ 'f' then c.toNat - 'a'.toNat + 10
  else if 'A' ≤ c && c ≤ 'F' then c.toNat - 'A'.toNat + 10
  else 0

/-- Hex digit test, as accepted by `bson.ObjectId`. -/
def isHexDigitCh (c : Char) : Bool :=
  ('0' ≤ c && c ≤ '9') || ('a' ≤ c && c ≤ 'f') || ('A' ≤ c && c ≤ 'F')

/-- ObjectId.is_valid on a string: exactly 24 hex characters. -/
def isValidObjectId (s : String) : Bool :=
  s.length == 24 && s.data.all isHexDigitCh

/-- bson `ObjectId(s)`: parses a 24-hex-digit string to the abstract id,
`none` modelling the `InvalidId` exception. -/
def parseOid (s : String) : Option Nat :=
  if isValidObjectId s then
    some (s.data.foldl (fun a c => a * 16 + hexDigitVal c) 0)
  else none

/-- A condition on one field of a Mongo filter document: plain equality
(`{k: v}`) or the case-insensitive regex used for the title search. -/
inductive Cond where
  | ceq (v : Value)
  | regexI (pat : String)

/-- Mongo filter documents, as built by the handlers. -/
abbrev MFilter := List (String × Cond)

/-- Does a document satisfy one filter condition?  Equality requires the
field to be present and equal (the handlers only ever filter on scalar
non-null values, where this is MongoDB's documented behaviour); the
regex condition is the spec-modelled case-insensitive substring match
on a string field. -/
def matchesCond (d : Doc) (k : String) : Cond → Bool
  | .ceq v =>
      match Doc.get d k with
      | some w => Value.beq w v
      | none => false
  | .regexI pat =>
      match Doc.get d k with
      | some (.vStr t) => containsCI t pat
      | _ => false

/-- Conjunction of all conditions of a filter document. -/
def matchesFilter (d : Doc) (f : MFilter) : Bool :=
  f.all (fun kc => matchesCond d kc.1 kc.2)

/-- Mongo `find_one(filter)`: the first matching document. -/
def find_one (coll : List Doc) (f : MFilter) : Option Doc :=
  match coll with
  | [] => none
  | d :: rest => if matchesFilter d f then some d else find_one rest f

/-- Mongo cursor `.limit(n)`: `0` means no limit, a nonzero `n` returns
at most `|n|` documents. -/
def mongoLimit (limit : Int) (l : List Doc) : List Doc :=
  if limit = 0 then l else l.take limit.natAbs

/-- Mongo `find(filter)` materialised in store order. -/
def mongoFind (coll : List Doc) (f : MFilter) : List Doc :=
  coll.filter (fun d => matchesFilter d f)

/-- A Mongo update document of the shape the handlers use:
`{"$push": pushes, "$set": sets}`. -/
structure MongoUpdate where
  pushes : List (String × Value)
  sets : List (String × Value)

/-- One `$push` entry: appends to an array field, creates a singleton
array if the field is absent.  (On a non-array field MongoDB fails the
update; that situation never arises for the projects this system
creates, and is modelled as leaving the field unchanged.) -/
def applyPush (d : Doc) (kv : String × Value) : Doc :=
  match Doc.get d kv.1 with
  | some (Value.vList l) => Doc.set d kv.1 (Value.vList (l ++ [kv.2]))
  | none => Doc.set d kv.1 (Value.vList [kv.2])
  | some _ => d

/-- Sequential `$set` application (helper for `applyUpdate`). -/
def Doc.foldlSets (d : Doc) (sets : List (String × Value)) : Doc :=
  sets.foldl (fun d kv => Doc.set d kv.1 kv.2) d

/-- Application of an update document to one document. -/
def applyUpdate (u : MongoUpdate) (d : Doc) : Doc :=
  Doc.foldlSets (u.pushes.foldl applyPush d) u.sets

/-- Mongo `update_one(filter, update)`: updates the first matching
document in place and reports the matched count (0 or 1). -/
def update_one (coll : List Doc) (f : MFilter) (u : MongoUpdate) : List Doc × Nat :=
  match coll with
  | [] => ([], 0)
  | d :: rest =>
      if matchesFilter d f then (applyUpdate u d :: rest, 1)
      else
        let r := update_one rest f u
        (d :: r.1, r.2)

/-- The four MongoDB collections this service touches, plus the counter
from which fresh ObjectIds are generated. -/
structure Store where
  product : List Doc
  order : List Doc
  project : List Doc
  customrequest : List Doc
  nextOid : Nat

/-- Collection access by name, as in `db[collection_name]`. -/
def Store.getColl (s : Store) : String → List Doc
  | "product" => s.product
  | "order" => s.order
  | "project" => s.project
  | "customrequest" => s.customrequest
  | _ => []

/-- Replacement of one named collection. -/
def Store.setColl (s : Store) (c : String) (l : List Doc) : Store :=
  match c with
  | "product" => { s with product := l }
  | "order" => { s with order := l }
  | "project" => { s with project := l }
  | "customrequest" => { s with customrequest := l }
  | _ => s

/-- Modelled from the spec: `database.py` is not under src/; the spec's
Document Store Adapter contract (section 4.1) is
`createDocument(collection, data) -> id`.  A fresh ObjectId is
generated, stored on the document (appended, as pymongo's `insert_one`
appends `_id` to the passed dict), the document is inserted at the end
of the collection, and the id is returned. -/
def create_document (s : Store) (c : String) (d : Doc) : Store × Nat :=
  let oid := s.nextOid
  let s1 := Store.setColl s c (s.getColl c ++ [Doc.set d "_id" (Value.vOid oid)])
  ({ s1 with nextOid := oid + 1 }, oid)

/-- Modelled from the spec: `database.py` is not under src/; the spec's
Document Store Adapter contract (section 4.1) is
`findDocuments(collection, filter, limit) -> sequence of documents`,
returning the matches in store order truncated to the limit. -/
def get_documents (s : Store) (c : String) (f : MFilter) (limit : Int) : List Doc :=
  mongoLimit limit (mongoFind (s.getColl c) f)

/-- HTTP-level error outcomes of a handler: `notFound` is the
404-equivalent, `invalidInput` the 400-equivalent, `internal` any
uncaught exception (500). -/
inductive HErr where
  | notFound
  | invalidInput
  | internal
deriving DecidableEq

/-- Optional string request field rendered into a document
(Python `None` becomes BSON null). -/
def optStrVal : Option String → Value
  | some s => Value.vStr s
  | none => Value.vNull

/-- Optional numeric request field rendered into a document. -/
def optNumVal : Option Int → Value
  | some n => Value.vNum n
  | none => Value.vNull

/-- The `{"_id": ObjectId(x)}` filter used by every by-id operation. -/
def idFilter (n : Nat) : MFilter := [("_id", Cond.ceq (Value.vOid n))]

/-- Truthiness of an optional string query parameter: Python
`if category:` is false for both `None` and the empty string. -/
def truthy : Option String → Bool
  | none => false
  | some s => !(s == "")

/-- One `if param: filter_q[k] = param` step of the filter building in
`list_products` / `list_projects`. -/
def optEqFilter (k : String) : Option String → MFilter
  | none => []
  | some s => if s == "" then [] else [(k, Cond.ceq (Value.vStr s))]

/-- The `if q: filter_q["title"] = {"$regex": q, "$options": "i"}` step
of `list_products`. -/
def optRegexFilter (k : String) : Option String → MFilter
  | none => []
  | some s => if s == "" then [] else [(k, Cond.regexI s)]

/-- list_products (main.py lines 95-107): builds the filter from the
truthy parameters in order (category, style, color, q) and returns the
serialized matches.  The route's default for `limit` is 24. -/
def list_products (s : Store) (category style color q : Option String)
    (limit : Int) : List Doc :=
  let f : MFilter :=
    optEqFilter "category" category ++ optEqFilter "style" style ++
    optEqFilter "color" color ++ optRegexFilter "title" q
  (get_documents s "product" f limit).map serialize_doc

/-- featured_products (main.py lines 109-112):
`db["product"].find({"featured": True}).limit(limit)`, serialized.
The route's default for `limit` is 8.  Note the code applies no sort. -/
def featured_products (s : Store) (limit : Int) : List Doc :=
  (mongoLimit limit (mongoFind s.product [("featured", Cond.ceq (Value.vBool true))])).map
    serialize_doc

/-- get_product (main.py lines 114-122).  The whole body runs inside
`try: ... except Exception: raise HTTPException(400)`.  `ObjectId(pid)`
raises on malformed input, and the `HTTPException(404)` raised for a
missing document is itself an `Exception`, so it too is caught and
re-raised as the 400 error. -/
def get_product (s : Store) (pid : String) : Except HErr Doc :=
  let tryBody : Except HErr Doc :=
    match parseOid pid with
    | none => Except.error HErr.invalidInput
    | some n =>
        match find_one s.product (idFilter n) with
        | none => Except.error HErr.notFound
        | some d => Except.ok (serialize_doc d)
  match tryBody with
  | Except.ok d => Except.ok d
  | Except.error _ => Except.error HErr.invalidInput

/-- OrderItem (main.py lines 60-65).  Pydantic constrains `license` to
`personal`/`commercial` and `quantity` to at least 1; the float `price`
is modelled as an opaque integer. -/
structure OrderItem where
  product_id : String
  title : String
  price : Int
  license : String
  quantity : Int

/-- CheckoutRequest (main.py lines 67-72); `subtotal` is an opaque
float modelled as an integer. -/
structure CheckoutRequest where
  email : String
  items : List OrderItem
  subtotal : Int
  coupon_code : Option String
  notes : Option String

/-- Validity of one order item, as enforced by pydantic at the route
boundary: license matches `^(personal|commercial)$` and quantity ≥ 1. -/
def OrderItem.wf (i : OrderItem) : Prop :=
  (i.license = "personal" ∨ i.license = "commercial") ∧ 1 ≤ i.quantity

/-- Validity of a checkout request as enforced at the boundary; the
`EmailStr` check is external to the repository and is modelled as the
presence of an `@`. -/
def CheckoutRequest.wf (p : CheckoutRequest) : Prop :=
  (∀ i ∈ p.items, i.wf) ∧ p.email.data.contains '@' = true

/-- The `i.dict()` rendering of one order item, field order as
declared. -/
def OrderItem.toDoc (i : OrderItem) : Value :=
  Value.vDoc [("product_id", Value.vStr i.product_id), ("title", Value.vStr i.title),
    ("price", Value.vNum i.price), ("license", Value.vStr i.license),
    ("quantity", Value.vNum i.quantity)]

/-- The order document literal built by `checkout`
(main.py lines 133-142), fields in source order. -/
def orderDocOf (p : CheckoutRequest) : Doc :=
  [("email", Value.vStr p.email),
   ("items", Value.vList (p.items.map OrderItem.toDoc)),
   ("subtotal", Value.vNum p.subtotal),
   ("coupon_code", optStrVal p.coupon_code),
   ("notes", optStrVal p.notes),
   ("status", Value.vStr "paid"),
   ("download_links",
     Value.vList (p.items.map (fun i => Value.vStr ("/downloads/" ++ i.product_id ++ ".zip")))),
   ("invoice_url", Value.vStr "/invoices/mock.pdf")]

/-- checkout (main.py lines 131-145): records the synthesized order via
`create_document`, re-reads it by id and returns it serialized.  The
product collection is never consulted. -/
def checkout (s : Store) (p : CheckoutRequest) : Store × Except HErr Doc :=
  let r := create_document s "order" (orderDocOf p)
  match find_one r.1.order (idFilter r.2) with
  | some saved => (r.1, Except.ok (serialize_doc saved))
  | none => (r.1, Except.error HErr.internal)

/-- list_projects (main.py lines 160-168): filter from the truthy
parameters (client_email, status), default limit 50, serialized. -/
def list_projects (s : Store) (email status : Option String) (limit : Int) : List Doc :=
  let f : MFilter := optEqFilter "client_email" email ++ optEqFilter "status" status
  (mongoLimit limit (mongoFind s.project f)).map serialize_doc

/-- ProjectCreateIn (main.py lines 170-173). -/
structure ProjectCreateIn where
  title : String
  client_email : String
  request_id : Option String

/-- create_project (main.py lines 175-186): payload fields plus the
initial workflow fields, inserted and returned serialized. -/
def create_project (s : Store) (p : ProjectCreateIn) : Store × Except HErr Doc :=
  let doc : Doc :=
    [("title", Value.vStr p.title), ("client_email", Value.vStr p.client_email),
     ("request_id", optStrVal p.request_id), ("status", Value.vStr "in_progress"),
     ("drafts", Value.vList []), ("comments", Value.vList []),
     ("history", Value.vList [])]
  let r := create_document s "project" doc
  match find_one r.1.project (idFilter r.2) with
  | some d => (r.1, Except.ok (serialize_doc d))
  | none => (r.1, Except.error HErr.internal)

/-- The draft entry `{"url": url, "uploaded_at": now}` pushed by
`upload_draft`. -/
def draftEntry (url : String) (t : Nat) : Value :=
  Value.vDoc [("url", Value.vStr url), ("uploaded_at", Value.vDt t)]

/-- The update document of `upload_draft` (main.py line 191). -/
def draftUpdate (url : String) (t : Nat) : MongoUpdate :=
  { pushes := [("drafts", draftEntry url t)], sets := [("updated_at", Value.vDt t)] }

/-- upload_draft (main.py lines 188-195): one `update_one` pushing the
draft and refreshing `updated_at` (both with the same `now`), 404 when
nothing matched, otherwise the project re-read and serialized.  A
malformed project id raises an uncaught `InvalidId` (500). -/
def upload_draft (s : Store) (pid url : String) (t : Nat) : Store × Except HErr Doc :=
  match parseOid pid with
  | none => (s, Except.error HErr.internal)
  | some n =>
      let r := update_one s.project (idFilter n) (draftUpdate url t)
      let s' := { s with project := r.1 }
      if r.2 = 0 then (s', Except.error HErr.notFound)
      else
        match find_one s'.project (idFilter n) with
        | some d => (s', Except.ok (serialize_doc d))
        | none => (s', Except.error HErr.internal)

/-- ProofCommentIn (main.py lines 84-88); the float coordinates are
modelled as opaque integers. -/
structure ProofCommentIn where
  author : String
  message : String
  x : Option Int
  y : Option Int

/-- The comment entry pushed by `add_comment`: the payload dict plus
`created_at` and `status="open"` (main.py lines 199-200). -/
def commentEntry (c : ProofCommentIn) (t1 : Nat) : Value :=
  Value.vDoc [("author", Value.vStr c.author), ("message", Value.vStr c.message),
    ("x", optNumVal c.x), ("y", optNumVal c.y), ("created_at", Value.vDt t1),
    ("status", Value.vStr "open")]

/-- The update document of `add_comment` (main.py line 201); the two
`datetime.now` calls are distinct, hence two time parameters. -/
def commentUpdate (c : ProofCommentIn) (t1 t2 : Nat) : MongoUpdate :=
  { pushes := [("comments", commentEntry c t1)], sets := [("updated_at", Value.vDt t2)] }

/-- add_comment (main.py lines 197-205): one `update_one` pushing the
comment and refreshing `updated_at`, 404 when nothing matched,
otherwise the project re-read and serialized. -/
def add_comment (s : Store) (pid : String) (c : ProofCommentIn) (t1 t2 : Nat) :
    Store × Except HErr Doc :=
  match parseOid pid with
  | none => (s, Except.error HErr.internal)
  | some n =>
      let r := update_one s.project (idFilter n) (commentUpdate c t1 t2)
      let s' := { s with project := r.1 }
      if r.2 = 0 then (s', Except.error HErr.notFound)
      else
        match find_one s'.project (idFilter n) with
        | some d => (s', Except.ok (serialize_doc d))
        | none => (s', Except.error HErr.internal)

/-- The update document of `approve_project` (main.py line 209): a bare
`$set` of status and approved_at, unconditional on the current state. -/
def approveUpdate (t : Nat) : MongoUpdate :=
  { pushes := [],
    sets := [("status", Value.vStr "approved"), ("approved_at", Value.vDt t)] }

/-- approve_project (main.py lines 207-213): one `update_one` setting
`status="approved"` and `approved_at=now`, 404 when nothing matched,
otherwise the project re-read and serialized. -/
def approve_project (s : Store) (pid : String) (t : Nat) : Store × Except HErr Doc :=
  match parseOid pid with
  | none => (s, Except.error HErr.internal)
  | some n =>
      let r := update_one s.project (idFilter n) (approveUpdate t)
      let s' := { s with project := r.1 }
      if r.2 = 0 then (s', Except.error HErr.notFound)
      else
        match find_one s'.project (idFilter n) with
        | some d => (s', Except.ok (serialize_doc d))
        | none => (s', Except.error HErr.internal)

/-- The project document found by id, the view through which the
workflow claims observe a project. -/
def projDoc (s : Store) (n : Nat) : Option Doc := find_one s.project (idFilter n)

/-- One field of the project found by id. -/
def projField (s : Store) (n : Nat) (k : String) : Option Value :=
  (projDoc s n).bind (fun d => Doc.get d k)

/-- The status of the project found by id. -/
def statusOf (s : Store) (n : Nat) : Option Value := projField s n "status"

/-- The approved_at timestamp of the project found by id. -/
def approvedAtOf (s : Store) (n : Nat) : Option Value := projField s n "approved_at"

/-- One workflow operation, carrying its target project id and the
wall-clock instants of its `datetime.now` calls. -/
inductive POp where
  | draft (pid url : String) (t : Nat)
  | comment (pid : String) (c : ProofCommentIn) (t1 t2 : Nat)
  | approve (pid : String) (t : Nat)

/-- The store after one workflow operation. -/
def POp.apply (s : Store) : POp → Store
  | .draft pid url t => (upload_draft s pid url t).1
  | .comment pid c t1 t2 => (add_comment s pid c t1 t2).1
  | .approve pid t => (approve_project s pid t).1

/-- The store after a sequence of workflow operations. -/
def runOps (s : Store) (ops : List POp) : Store := ops.foldl POp.apply s

/-- The store after a sequence of draft uploads to one project. -/
def runUploads (s : Store) (pid : String) (calls : List (String × Nat)) : Store :=
  calls.foldl (fun st c => (upload_draft st pid c.1 c.2).1) s

/- ------------------- spec-side predicates and fixtures ------------------- -/

/-- Spec-side predicate for the featured filter: the document's
`featured` field is the boolean true. -/
def isFeatured (d : Doc) : Bool :=
  match Doc.get d "featured" with
  | some (Value.vBool true) => true
  | _ => false

/-- The document's rating when it is a number, `0` otherwise (ratings
are opaque numbers in this model). -/
def ratingIntOf (d : Doc) : Int :=
  match Doc.get d "rating" with
  | some (Value.vNum n) => n
  | _ => 0

/-- Spec-side predicate: the list is sorted by rating, descending. -/
def sortedByRatingDesc : List Doc → Bool
  | [] => true
  | [_] => true
  | d1 :: d2 :: rest => (ratingIntOf d2 ≤ ratingIntOf d1) && sortedByRatingDesc (d2 :: rest)

/-- Spec-side predicate for the free-text query: the document's title
is a string containing the query as a case-insensitive substring. -/
def titleContainsCI (d : Doc) (q : String) : Bool :=
  match Doc.get d "title" with
  | some (Value.vStr t) => containsCI t q
  | _ => false

/-- Spec-side reading of one optional exact-match filter parameter:
absent or empty means no constraint, otherwise the field must equal the
given string. -/
def passesEqFilterP (d : Doc) (k : String) (o : Option String) : Bool :=
  match o with
  | none => true
  | some v =>
      if v == "" then true
      else
        match Doc.get d k with
        | some w => Value.beq w (Value.vStr v)
        | none => false

/-- Spec-side reading of the category/style/color filters of
`list_products`. -/
def passesBaseFilters (d : Doc) (cat sty col : Option String) : Bool :=
  passesEqFilterP d "category" cat && passesEqFilterP d "style" sty &&
    passesEqFilterP d "color" col

/-- Well-formedness of a collection relative to the id counter: every
ObjectId stored in an `_id` field was generated earlier.  This is the
invariant `create_document` maintains. -/
def collWF (l : List Doc) (bound : Nat) : Prop :=
  ∀ d ∈ l, ∀ m, Doc.get d "_id" = some (Value.vOid m) → m < bound

/-- A raw stored document with an ObjectId and a timestamp, used as the
serialization counterexample. -/
def d0 : Doc := [("_id", Value.vOid 0), ("created_at", Value.vDt 5)]

/-- A freshly created project document (the shape `create_project`
stores), with ObjectId 0. -/
def projP0 : Doc :=
  [("title", Value.vStr "Brand refresh"), ("client_email", Value.vStr "c@e.com"),
   ("request_id", Value.vNull), ("status", Value.vStr "in_progress"),
   ("drafts", Value.vList []), ("comments", Value.vList []),
   ("history", Value.vList []), ("_id", Value.vOid 0)]

/-- The 24-hex-digit string form of ObjectId 0. -/
def pid0 : String := "000000000000000000000000"

/-- A store holding the single project `projP0`. -/
def sW : Store :=
  { product := [], order := [], project := [projP0], customrequest := [], nextOid := 1 }

/-- A store with one product (ObjectId 0), for the get-product
evaluation. -/
def sC1 : Store :=
  { product := [[("_id", Value.vOid 0), ("title", Value.vStr "Logo Pack Deluxe")]],
    order := [], project := [], customrequest := [], nextOid := 1 }

/-- A store with two featured products whose ratings are in ascending
store order. -/
def sC3 : Store :=
  { product :=
      [[("_id", Value.vOid 0), ("title", Value.vStr "A"),
        ("featured", Value.vBool true), ("rating", Value.vNum 1)],
       [("_id", Value.vOid 1), ("title", Value.vStr "B"),
        ("featured", Value.vBool true), ("rating", Value.vNum 5)]],
    order := [], project := [], customrequest := [], nextOid := 2 }

/-- Products for the free-text query example: one title matching
"logo" case-insensitively, one not. -/
def prodLogo : Doc :=
  [("_id", Value.vOid 0), ("title", Value.vStr "Logo Pack Deluxe"),
   ("category", Value.vStr "branding")]

/-- The non-matching product of the query example. -/
def prodIcon : Doc :=
  [("_id", Value.vOid 1), ("title", Value.vStr "Icon Set")]

/-- The store of the free-text query example. -/
def sLP : Store :=
  { product := [prodLogo, prodIcon], order := [], project := [],
    customrequest := [], nextOid := 2 }

/-- The empty store. -/
def sEmpty : Store :=
  { product := [], order := [], project := [], customrequest := [], nextOid := 0 }

/-- The checkout example payload from the spec's testable properties. -/
def payC6 : CheckoutRequest :=
  { email := "a@b.com",
    items := [{ product_id := "p1", title := "Logo Pack", price := 10,
                license := "personal", quantity := 1 }],
    subtotal := 10, coupon_code := none, notes := none }

/- ------------------- dictionary lemmas ------------------- -/

theorem Doc.get_set_self (d : Doc) (k : String) (v : Value) :
    Doc.get (Doc.set d k v) k = some v := by
  induction d with
  | nil => simp [Doc.set, Doc.get]
  | cons kv rest ih =>
      obtain ⟨k0, v0⟩ := kv
      by_cases h : k0 = k
      · simp [Doc.set, h, Doc.get]
      · simp [Doc.set, h, Doc.get, ih]

theorem Doc.get_set_ne (d : Doc) (k' k : String) (v : Value) (h : k' ≠ k) :
    Doc.get (Doc.set d k' v) k = Doc.get d k := by
  induction d with
  | nil => simp [Doc.set, Doc.get, h]
  | cons kv rest ih =>
      obtain ⟨k0, v0⟩ := kv
      by_cases h0 : k0 = k'
      · subst h0
        simp [Doc.set, Doc.get, h]
      · simp only [Doc.set, h0, if_false]
        by_cases h1 : k0 = k
        · simp [Doc.get, h1]
        · simp [Doc.get, h1, ih]

theorem Doc.set_ne_nil (d : Doc) (k : String) (v : Value) :
    Doc.set d k v ≠ [] := by
  cases d with
  | nil => simp [Doc.set]
  | cons kv rest =>
      obtain ⟨k0, v0⟩ := kv
      by_cases h : k0 = k <;> simp [Doc.set, h]

theorem Doc.get_erase_ne (d : Doc) (k' k : String) (h : k' ≠ k) :
    Doc.get (Doc.erase d k') k = Doc.get d k := by
  induction d with
  | nil => simp [Doc.erase]
  | cons kv rest ih =>
      obtain ⟨k0, v0⟩ := kv
      by_cases h0 : k0 = k'
      · subst h0
        have h1 : k0 ≠ k := h
        simp [Doc.erase, Doc.get, h1]
      · by_cases h1 : k0 = k
        · subst h1
          simp [Doc.erase, h0, Doc.get]
        · simp [Doc.erase, h0, Doc.get, h1, ih]

theorem Doc.erase_of_get_none (d : Doc) (k : String) (h : Doc.get d k = none) :
    Doc.erase d k = d := by
  induction d with
  | nil => simp [Doc.erase]
  | cons kv rest ih =>
      obtain ⟨k0, v0⟩ := kv
      by_cases h0 : k0 = k
      · simp [Doc.get, h0] at h
      · simp [Doc.get, h0] at h
        simp [Doc.erase, h0, ih h]

theorem Doc.get_of_not_mem_keys (d : Doc) (k : String)
    (h : k ∉ d.map Prod.fst) : Doc.get d k = none := by
  induction d with
  | nil => simp [Doc.get]
  | cons kv rest ih =>
      obtain ⟨k0, v0⟩ := kv
      simp only [List.map_cons, List.mem_cons] at h
      push_neg at h
      have h0 : k0 ≠ k := fun hh => h.1 hh.symm
      simp [Doc.get, h0, ih h.2]

/-- Keys of a genuine Python dict are pairwise distinct; documents built
by the handlers always satisfy this. -/
def Doc.keysNodup (d : Doc) : Prop := (d.map Prod.fst).Nodup

theorem Doc.mem_keys_set (d : Doc) (k : String) (v : Value) (a : String)
    (h : a ∈ (Doc.set d k v).map Prod.fst) : a ∈ d.map Prod.fst ∨ a = k := by
  induction d with
  | nil => simpa [Doc.set] using h
  | cons kv rest ih =>
      obtain ⟨k0, v0⟩ := kv
      by_cases h0 : k0 = k
      · subst h0
        simp only [Doc.set, if_true, List.map_cons, List.mem_cons] at h
        rcases h with h | h
        · exact Or.inr h
        · exact Or.inl (by rw [List.map_cons]; exact List.mem_cons_of_mem _ h)
      · simp only [Doc.set, h0, if_false, List.map_cons, List.mem_cons] at h
        rcases h with h | h
        · exact Or.inl (by rw [List.map_cons, h]; exact List.mem_cons_self _ _)
        · rcases ih h with h' | h'
          · exact Or.inl (by rw [List.map_cons]; exact List.mem_cons_of_mem _ h')
          · exact Or.inr h'

theorem Doc.keysNodup_set (d : Doc) (k : String) (v : Value)
    (h : Doc.keysNodup d) : Doc.keysNodup (Doc.set d k v) := by
  induction d with
  | nil => simp [Doc.set, Doc.keysNodup]
  | cons kv rest ih =>
      obtain ⟨k0, v0⟩ := kv
      simp only [Doc.keysNodup, List.map_cons, List.nodup_cons] at h
      by_cases h0 : k0 = k
      · subst h0
        simp only [Doc.set, if_true]
        simpa [Doc.keysNodup] using h
      · simp only [Doc.set, h0, if_false]
        have hrest := ih h.2
        simp only [Doc.keysNodup, List.map_cons, List.nodup_cons]
        refine ⟨?_, hrest⟩
        intro hmem
        rcases Doc.mem_keys_set rest k v k0 hmem with h' | h'
        · exact h.1 h'
        · exact h0 h'

theorem Doc.get_erase_self (d : Doc) (k : String) (h : Doc.keysNodup d) :
    Doc.get (Doc.erase d k) k = none := by
  induction d with
  | nil => simp [Doc.erase, Doc.get]
  | cons kv rest ih =>
      obtain ⟨k0, v0⟩ := kv
      simp only [Doc.keysNodup, List.map_cons, List.nodup_cons] at h
      by_cases h0 : k0 = k
      · subst h0
        simp only [Doc.erase, if_true]
        exact Doc.get_of_not_mem_keys rest k0 h.1
      · simp [Doc.erase, h0, Doc.get, ih h.2]

/- ------------------- stringification lemmas ------------------- -/

theorem stringifyTimes_idem (v : Value) :
    stringifyTimes (stringifyTimes v) = stringifyTimes v := by
  cases v <;> rfl

theorem stringifyEntries_idem (d : Doc) :
    stringifyEntries (stringifyEntries d) = stringifyEntries d := by
  induction d with
  | nil => rfl
  | cons kv rest ih =>
      obtain ⟨k0, v0⟩ := kv
      show (k0, stringifyTimes (stringifyTimes v0)) :: stringifyEntries (stringifyEntries rest)
          = (k0, stringifyTimes v0) :: stringifyEntries rest
      rw [stringifyTimes_idem, ih]

theorem get_stringifyEntries (d : Doc) (k : String) :
    Doc.get (stringifyEntries d) k = (Doc.get d k).map stringifyTimes := by
  induction d with
  | nil => rfl
  | cons kv rest ih =>
      obtain ⟨k0, v0⟩ := kv
      by_cases h : k0 = k
      · simp [stringifyEntries, Doc.get, h]
      · simpa [stringifyEntries, Doc.get, h] using ih

theorem stringifyEntries_set (d : Doc) (k : String) (v : Value) :
    stringifyEntries (Doc.set d k v) = Doc.set (stringifyEntries d) k (stringifyTimes v) := by
  induction d with
  | nil => rfl
  | cons kv rest ih =>
      obtain ⟨k0, v0⟩ := kv
      by_cases h : k0 = k
      · simp [stringifyEntries, Doc.set, h]
      · simpa [stringifyEntries, Doc.set, h] using ih

theorem stringifyEntries_eq_nil (d : Doc) (h : d ≠ []) : stringifyEntries d ≠ [] := by
  cases d with
  | nil => exact absurd rfl h
  | cons kv rest => simp [stringifyEntries]

theorem serialize_doc_of_ne_nil (d : Doc) (h : d ≠ []) :
    serialize_doc d =
      stringifyEntries
        (Doc.erase (Doc.set d "id" (Value.vStr (pyStr (Doc.get d "_id")))) "_id") := by
  cases d with
  | nil => exact absurd rfl h
  | cons kv rest => rfl

/- ------------------- filter lemmas ------------------- -/

theorem Value.beq_vOid (w : Value) (n : Nat) :
    Value.beq w (Value.vOid n) = true ↔ w = Value.vOid n := by
  cases w <;> simp [Value.beq]

theorem Value.beq_vStr (w : Value) (s : String) :
    Value.beq w (Value.vStr s) = true ↔ w = Value.vStr s := by
  cases w <;> simp [Value.beq]

theorem Value.beq_vBool (w : Value) (b : Bool) :
    Value.beq w (Value.vBool b) = true ↔ w = Value.vBool b := by
  cases w <;> simp [Value.beq]

theorem matchesFilter_idFilter (d : Doc) (n : Nat) :
    matchesFilter d (idFilter n) = true ↔ Doc.get d "_id" = some (Value.vOid n) := by
  cases hg : Doc.get d "_id" with
  | none => simp [matchesFilter, idFilter, matchesCond, hg]
  | some w => simp [matchesFilter, idFilter, matchesCond, hg, Value.beq_vOid]

theorem matchesFilter_append (d : Doc) (f1 f2 : MFilter) :
    matchesFilter d (f1 ++ f2) = (matchesFilter d f1 && matchesFilter d f2) := by
  simp [matchesFilter, List.all_append]

/- ------------------- find_one / update_one lemmas ------------------- -/

theorem find_one_append (l1 l2 : List Doc) (f : MFilter)
    (h : ∀ d ∈ l1, matchesFilter d f = false) :
    find_one (l1 ++ l2) f = find_one l2 f := by
  induction l1 with
  | nil => rfl
  | cons d rest ih =>
      have hd := h d (List.mem_cons_self d rest)
      simp only [List.cons_append, find_one, hd]
      simp only [Bool.false_eq_true, if_false]
      exact ih (fun x hx => h x (List.mem_cons_of_mem d hx))

theorem find_one_update_one_keeps (coll : List Doc) (f ftgt : MFilter) (u : MongoUpdate)
    (k : String)
    (hm : ∀ d, matchesFilter (applyUpdate u d) f = matchesFilter d f)
    (hk : ∀ d, Doc.get (applyUpdate u d) k = Doc.get d k) :
    (find_one (update_one coll ftgt u).1 f).bind (fun d => Doc.get d k)
      = (find_one coll f).bind (fun d => Doc.get d k) := by
  induction coll with
  | nil => rfl
  | cons d rest ih =>
      by_cases h0 : matchesFilter d ftgt = true
      · by_cases h1 : matchesFilter d f = true
        · simp [update_one, h0, find_one, hm d, h1, hk d]
        · simp [update_one, h0, find_one, hm d, h1]
      · by_cases h1 : matchesFilter d f = true
        · simp [update_one, h0, find_one, h1]
        · simpa [update_one, h0, find_one, h1] using ih

theorem find_one_update_one_sets (coll : List Doc) (f ftgt : MFilter) (u : MongoUpdate)
    (k : String) (v : Value)
    (hm : ∀ d, matchesFilter (applyUpdate u d) f = matchesFilter d f)
    (hk : ∀ d, Doc.get (applyUpdate u d) k = some v) :
    (find_one (update_one coll ftgt u).1 f).bind (fun d => Doc.get d k)
      = (find_one coll f).bind (fun d => Doc.get d k)
    ∨ (find_one (update_one coll ftgt u).1 f).bind (fun d => Doc.get d k) = some v := by
  induction coll with
  | nil => exact Or.inl rfl
  | cons d rest ih =>
      by_cases h0 : matchesFilter d ftgt = true
      · by_cases h1 : matchesFilter d f = true
        · right
          simp [update_one, h0, find_one, hm d, h1, hk d]
        · left
          simp [update_one, h0, find_one, hm d, h1]
      · by_cases h1 : matchesFilter d f = true
        · left
          simp [update_one, h0, find_one, h1]
        · rcases ih with ih | ih
          · left
            simpa [update_one, h0, find_one, h1] using ih
          · right
            simpa [update_one, h0, find_one, h1] using ih

theorem find_one_update_one_self (coll : List Doc) (f : MFilter) (u : MongoUpdate)
    (hm : ∀ d, matchesFilter (applyUpdate u d) f = matchesFilter d f) :
    find_one (update_one coll f u).1 f = (find_one coll f).map (applyUpdate u) := by
  induction coll with
  | nil => rfl
  | cons d rest ih =>
      by_cases h0 : matchesFilter d f = true
      · simp [update_one, h0, find_one, hm d]
      · simp [update_one, h0, find_one, ih]

theorem update_one_matched_count (coll : List Doc) (f : MFilter) (u : MongoUpdate) :
    (update_one coll f u).2 = (if (find_one coll f).isSome then 1 else 0) := by
  induction coll with
  | nil => rfl
  | cons d rest ih =>
      by_cases h0 : matchesFilter d f = true
      · simp [update_one, h0, find_one]
      · simp [update_one, h0, find_one, ih]

theorem update_one_of_no_match (coll : List Doc) (f : MFilter) (u : MongoUpdate)
    (h : find_one coll f = none) :
    (update_one coll f u).1 = coll := by
  induction coll with
  | nil => rfl
  | cons d rest ih =>
      by_cases h0 : matchesFilter d f = true
      · simp [find_one, h0] at h
      · simp only [find_one, h0] at h
        simp only [Bool.false_eq_true, if_false] at h
        simp [update_one, h0, ih h]

/- ------------------- update-shape lemmas ------------------- -/

theorem get_applyPush_ne (d : Doc) (kv : String × Value) (k : String) (h : kv.1 ≠ k) :
    Doc.get (applyPush d kv) k = Doc.get d k := by
  cases hg : Doc.get d kv.1 with
  | none => simp [applyPush, hg, Doc.get_set_ne _ _ _ _ h]
  | some w => cases w <;> simp [applyPush, hg, Doc.get_set_ne _ _ _ _ h]

theorem applyUpdate_draft (url : String) (t : Nat) (d : Doc) :
    applyUpdate (draftUpdate url t) d
      = Doc.set (applyPush d ("drafts", draftEntry url t)) "updated_at" (Value.vDt t) := rfl

theorem applyUpdate_comment (c : ProofCommentIn) (t1 t2 : Nat) (d : Doc) :
    applyUpdate (commentUpdate c t1 t2) d
      = Doc.set (applyPush d ("comments", commentEntry c t1)) "updated_at" (Value.vDt t2) := rfl

theorem applyUpdate_approve (t : Nat) (d : Doc) :
    applyUpdate (approveUpdate t) d
      = Doc.set (Doc.set d "status" (Value.vStr "approved")) "approved_at" (Value.vDt t) := rfl

theorem draft_keeps (url : String) (t : Nat) (d : Doc) (k : String)
    (h1 : k ≠ "drafts") (h2 : k ≠ "updated_at") :
    Doc.get (applyUpdate (draftUpdate url t) d) k = Doc.get d k := by
  rw [applyUpdate_draft, Doc.get_set_ne _ _ _ _ (Ne.symm h2),
    get_applyPush_ne _ _ _ (Ne.symm h1)]

theorem comment_keeps (c : ProofCommentIn) (t1 t2 : Nat) (d : Doc) (k : String)
    (h1 : k ≠ "comments") (h2 : k ≠ "updated_at") :
    Doc.get (applyUpdate (commentUpdate c t1 t2) d) k = Doc.get d k := by
  rw [applyUpdate_comment, Doc.get_set_ne _ _ _ _ (Ne.symm h2),
    get_applyPush_ne _ _ _ (Ne.symm h1)]

theorem approve_keeps (t : Nat) (d : Doc) (k : String)
    (h1 : k ≠ "status") (h2 : k ≠ "approved_at") :
    Doc.get (applyUpdate (approveUpdate t) d) k = Doc.get d k := by
  rw [applyUpdate_approve, Doc.get_set_ne _ _ _ _ (Ne.symm h2),
    Doc.get_set_ne _ _ _ _ (Ne.symm h1)]

theorem approve_sets_status (t : Nat) (d : Doc) :
    Doc.get (applyUpdate (approveUpdate t) d) "status" = some (Value.vStr "approved") := by
  rw [applyUpdate_approve,
    Doc.get_set_ne _ _ _ _ (by decide : ("approved_at" : String) ≠ "status"),
    Doc.get_set_self]

theorem approve_sets_approved_at (t : Nat) (d : Doc) :
    Doc.get (applyUpdate (approveUpdate t) d) "approved_at" = some (Value.vDt t) := by
  rw [applyUpdate_approve, Doc.get_set_self]

theorem draft_sets_updated_at (url : String) (t : Nat) (d : Doc) :
    Doc.get (applyUpdate (draftUpdate url t) d) "updated_at" = some (Value.vDt t) := by
  rw [applyUpdate_draft, Doc.get_set_self]

theorem draft_appends (url : String) (t : Nat) (d : Doc) (l : List Value)
    (h : Doc.get d "drafts" = some (Value.vList l)) :
    Doc.get (applyUpdate (draftUpdate url t) d) "drafts"
      = some (Value.vList (l ++ [draftEntry url t])) := by
  rw [applyUpdate_draft,
    Doc.get_set_ne _ _ _ _ (by decide : ("updated_at" : String) ≠ "drafts")]
  simp [applyPush, h, Doc.get_set_self]

theorem comment_appends (c : ProofCommentIn) (t1 t2 : Nat) (d : Doc) (l : List Value)
    (h : Doc.get d "comments" = some (Value.vList l)) :
    Doc.get (applyUpdate (commentUpdate c t1 t2) d) "comments"
      = some (Value.vList (l ++ [commentEntry c t1])) := by
  rw [applyUpdate_comment,
    Doc.get_set_ne _ _ _ _ (by decide : ("updated_at" : String) ≠ "comments")]
  simp [applyPush, h, Doc.get_set_self]

/- ------------------- serializer lemmas ------------------- -/

theorem get_serialize_ne (d : Doc) (k : String) (h1 : k ≠ "id") (h2 : k ≠ "_id") :
    Doc.get (serialize_doc d) k = (Doc.get d k).map stringifyTimes := by
  cases d with
  | nil => rfl
  | cons kv rest =>
      rw [serialize_doc_of_ne_nil _ (by simp), get_stringifyEntries,
        Doc.get_erase_ne _ _ _ (Ne.symm h2), Doc.get_set_ne _ _ _ _ (Ne.symm h1)]

theorem get_serialize_id (d : Doc) (h : d ≠ []) :
    Doc.get (serialize_doc d) "id" = some (Value.vStr (pyStr (Doc.get d "_id"))) := by
  rw [serialize_doc_of_ne_nil _ h, get_stringifyEntries,
    Doc.get_erase_ne _ _ _ (by decide : ("_id" : String) ≠ "id"), Doc.get_set_self]
  rfl

/- ------------------- per-update filter preservation ------------------- -/

theorem matchesFilter_idFilter_eq_of_get (d1 d2 : Doc) (n : Nat)
    (h : Doc.get d1 "_id" = Doc.get d2 "_id") :
    matchesFilter d1 (idFilter n) = matchesFilter d2 (idFilter n) := by
  simp [matchesFilter, idFilter, matchesCond, h]

theorem draft_match_id (url : String) (t : Nat) (n : Nat) :
    ∀ d, matchesFilter (applyUpdate (draftUpdate url t) d) (idFilter n)
      = matchesFilter d (idFilter n) :=
  fun d => matchesFilter_idFilter_eq_of_get _ _ _
    (draft_keeps url t d "_id" (by decide) (by decide))

theorem comment_match_id (c : ProofCommentIn) (t1 t2 : Nat) (n : Nat) :
    ∀ d, matchesFilter (applyUpdate (commentUpdate c t1 t2) d) (idFilter n)
      = matchesFilter d (idFilter n) :=
  fun d => matchesFilter_idFilter_eq_of_get _ _ _
    (comment_keeps c t1 t2 d "_id" (by decide) (by decide))

theorem approve_match_id (t : Nat) (n : Nat) :
    ∀ d, matchesFilter (applyUpdate (approveUpdate t) d) (idFilter n)
      = matchesFilter d (idFilter n) :=
  fun d => matchesFilter_idFilter_eq_of_get _ _ _
    (approve_keeps t d "_id" (by decide) (by decide))

/- ------------------- handler store-effect lemmas ------------------- -/

theorem upload_draft_store (s : Store) (pid url : String) (t n : Nat)
    (h : parseOid pid = some n) :
    (upload_draft s pid url t).1
      = { s with project := (update_one s.project (idFilter n) (draftUpdate url t)).1 } := by
  simp only [upload_draft, h]
  split
  · rfl
  · split <;> rfl

theorem add_comment_store (s : Store) (pid : String) (c : ProofCommentIn) (t1 t2 n : Nat)
    (h : parseOid pid = some n) :
    (add_comment s pid c t1 t2).1
      = { s with project := (update_one s.project (idFilter n) (commentUpdate c t1 t2)).1 } := by
  simp only [add_comment, h]
  split
  · rfl
  · split <;> rfl

theorem approve_project_store (s : Store) (pid : String) (t n : Nat)
    (h : parseOid pid = some n) :
    (approve_project s pid t).1
      = { s with project := (update_one s.project (idFilter n) (approveUpdate t)).1 } := by
  simp only [approve_project, h]
  split
  · rfl
  · split <;> rfl

theorem projField_upload_draft (s : Store) (pid url : String) (t : Nat) (n : Nat) (k : String)
    (h1 : k ≠ "drafts") (h2 : k ≠ "updated_at") :
    projField ((upload_draft s pid url t).1) n k = projField s n k := by
  cases hp : parseOid pid with
  | none => simp [upload_draft, hp]
  | some m =>
      rw [upload_draft_store s pid url t m hp]
      unfold projField projDoc
      exact find_one_update_one_keeps _ _ _ _ _ (draft_match_id url t n)
        (fun d => draft_keeps url t d k h1 h2)

theorem projField_add_comment (s : Store) (pid : String) (c : ProofCommentIn)
    (t1 t2 : Nat) (n : Nat) (k : String)
    (h1 : k ≠ "comments") (h2 : k ≠ "updated_at") :
    projField ((add_comment s pid c t1 t2).1) n k = projField s n k := by
  cases hp : parseOid pid with
  | none => simp [add_comment, hp]
  | some m =>
      rw [add_comment_store s pid c t1 t2 m hp]
      unfold projField projDoc
      exact find_one_update_one_keeps _ _ _ _ _ (comment_match_id c t1 t2 n)
        (fun d => comment_keeps c t1 t2 d k h1 h2)

theorem projField_approve (s : Store) (pid : String) (t : Nat) (n : Nat) (k : String)
    (h1 : k ≠ "status") (h2 : k ≠ "approved_at") :
    projField ((approve_project s pid t).1) n k = projField s n k := by
  cases hp : parseOid pid with
  | none => simp [approve_project, hp]
  | some m =>
      rw [approve_project_store s pid t m hp]
      unfold projField projDoc
      exact find_one_update_one_keeps _ _ _ _ _ (approve_match_id t n)
        (fun d => approve_keeps t d k h1 h2)

theorem statusOf_approve_cases (s : Store) (pid : String) (t : Nat) (n : Nat) :
    statusOf ((approve_project s pid t).1) n = statusOf s n
    ∨ statusOf ((approve_project s pid t).1) n = some (Value.vStr "approved") := by
  cases hp : parseOid pid with
  | none => left; simp [approve_project, hp, statusOf]
  | some m =>
      rw [approve_project_store s pid t m hp]
      unfold statusOf projField projDoc
      exact find_one_update_one_sets _ _ _ _ _ _ (approve_match_id t n)
        (fun d => approve_sets_status t d)

theorem projDoc_upload_draft (s : Store) (pid url : String) (t n : Nat) (d : Doc)
    (h1 : parseOid pid = some n) (h2 : projDoc s n = some d) :
    projDoc ((upload_draft s pid url t).1) n = some (applyUpdate (draftUpdate url t) d) := by
  rw [upload_draft_store s pid url t n h1]
  unfold projDoc
  rw [find_one_update_one_self _ _ _ (draft_match_id url t n)]
  have h2' : find_one s.project (idFilter n) = some d := h2
  rw [h2']
  rfl

theorem projDoc_approve (s : Store) (pid : String) (t n : Nat) (d : Doc)
    (h1 : parseOid pid = some n) (h2 : projDoc s n = some d) :
    projDoc ((approve_project s pid t).1) n = some (applyUpdate (approveUpdate t) d) := by
  rw [approve_project_store s pid t n h1]
  unfold projDoc
  rw [find_one_update_one_self _ _ _ (approve_match_id t n)]
  have h2' : find_one s.project (idFilter n) = some d := h2
  rw [h2']
  rfl

theorem upload_draft_ok (s : Store) (pid url : String) (t n : Nat) (d : Doc)
    (h1 : parseOid pid = some n) (h2 : projDoc s n = some d) :
    (upload_draft s pid url t).2
      = Except.ok (serialize_doc (applyUpdate (draftUpdate url t) d)) := by
  have h2' : find_one s.project (idFilter n) = some d := h2
  simp only [upload_draft, h1, update_one_matched_count, h2', Option.isSome_some,
    if_true, one_ne_zero, if_false]
  rw [find_one_update_one_self _ _ _ (draft_match_id url t n), h2']
  rfl

theorem approve_project_ok (s : Store) (pid : String) (t n : Nat) (d : Doc)
    (h1 : parseOid pid = some n) (h2 : projDoc s n = some d) :
    (approve_project s pid t).2
      = Except.ok (serialize_doc (applyUpdate (approveUpdate t) d)) := by
  have h2' : find_one s.project (idFilter n) = some d := h2
  simp only [approve_project, h1, update_one_matched_count, h2', Option.isSome_some,
    if_true, one_ne_zero, if_false]
  rw [find_one_update_one_self _ _ _ (approve_match_id t n), h2']
  rfl

theorem approve_project_missing (s : Store) (pid : String) (t n : Nat)
    (h1 : parseOid pid = some n) (h2 : projDoc s n = none) :
    (approve_project s pid t).2 = Except.error HErr.notFound
    ∧ (approve_project s pid t).1 = s := by
  have h2' : find_one s.project (idFilter n) = none := h2
  constructor
  · simp [approve_project, h1, update_one_matched_count, h2']
  · rw [approve_project_store s pid t n h1, update_one_of_no_match _ _ _ h2']

theorem runUploads_drafts (calls : List (String × Nat)) :
    ∀ (s : Store) (pid : String) (n : Nat) (d : Doc) (l0 : List Value),
      parseOid pid = some n →
      projDoc s n = some d →
      Doc.get d "drafts" = some (Value.vList l0) →
      ∃ d2, projDoc (runUploads s pid calls) n = some d2
        ∧ Doc.get d2 "drafts"
            = some (Value.vList (l0 ++ calls.map (fun c => draftEntry c.1 c.2))) := by
  induction calls with
  | nil =>
      intro s pid n d l0 h1 h2 h3
      exact ⟨d, h2, by simpa [runUploads] using h3⟩
  | cons c rest ih =>
      intro s pid n d l0 h1 h2 h3
      have hstep := projDoc_upload_draft s pid c.1 c.2 n d h1 h2
      have hdr := draft_appends c.1 c.2 d l0 h3
      obtain ⟨d2, hh1, hh2⟩ :=
        ih ((upload_draft s pid c.1 c.2).1) pid n _ (l0 ++ [draftEntry c.1 c.2]) h1 hstep hdr
      refine ⟨d2, by simpa [runUploads] using hh1, ?_⟩
      rw [hh2]
      simp [List.append_assoc]

/- ------------------- workflow status invariants ------------------- -/

theorem statusOf_op_cases (s : Store) (n : Nat) (op : POp) :
    statusOf (POp.apply s op) n = statusOf s n
    ∨ statusOf (POp.apply s op) n = some (Value.vStr "approved") := by
  cases op with
  | draft pid url t =>
      left
      exact projField_upload_draft s pid url t n "status" (by decide) (by decide)
  | comment pid c t1 t2 =>
      left
      exact projField_add_comment s pid c t1 t2 n "status" (by decide) (by decide)
  | approve pid t => exact statusOf_approve_cases s pid t n

theorem runOps_status_closed (ops : List POp) :
    ∀ (s : Store) (n : Nat),
      (statusOf s n = some (Value.vStr "in_progress")
        ∨ statusOf s n = some (Value.vStr "approved")) →
      (statusOf (runOps s ops) n = some (Value.vStr "in_progress")
        ∨ statusOf (runOps s ops) n = some (Value.vStr "approved")) := by
  induction ops with
  | nil => intro s n h; simpa [runOps] using h
  | cons op rest ih =>
      intro s n h
      have hstep := statusOf_op_cases s n op
      have hnext : statusOf (POp.apply s op) n = some (Value.vStr "in_progress")
          ∨ statusOf (POp.apply s op) n = some (Value.vStr "approved") := by
        rcases hstep with hs | hs
        · rw [hs]; exact h
        · right; exact hs
      simpa [runOps] using ih (POp.apply s op) n hnext

theorem runOps_status_absorbing (ops : List POp) :
    ∀ (s : Store) (n : Nat),
      statusOf s n = some (Value.vStr "approved") →
      statusOf (runOps s ops) n = some (Value.vStr "approved") := by
  induction ops with
  | nil => intro s n h; simpa [runOps] using h
  | cons op rest ih =>
      intro s n h
      have hstep := statusOf_op_cases s n op
      have hnext : statusOf (POp.apply s op) n = some (Value.vStr "approved") := by
        rcases hstep with hs | hs
        · rw [hs]; exact h
        · exact hs
      simpa [runOps] using ih (POp.apply s op) n hnext

/- ------------------- listing lemmas ------------------- -/

theorem mongoLimit_map (limit : Int) (l : List Doc) (f : Doc → Doc) :
    (mongoLimit limit l).map f = mongoLimit limit (l.map f) := by
  unfold mongoLimit
  split
  · rfl
  · exact List.map_take f l limit.natAbs

theorem matchesFeatured (d : Doc) :
    matchesFilter d [("featured", Cond.ceq (Value.vBool true))] = isFeatured d := by
  have h : matchesFilter d [("featured", Cond.ceq (Value.vBool true))]
      = matchesCond d "featured" (Cond.ceq (Value.vBool true)) := by
    simp [matchesFilter]
  rw [h]
  unfold matchesCond isFeatured
  cases hg : Doc.get d "featured" with
  | none => rfl
  | some w =>
      cases w with
      | vBool b => cases b <;> rfl
      | vStr a => rfl
      | vNum a => rfl
      | vDt a => rfl
      | vOid a => rfl
      | vNull => rfl
      | vList a => rfl
      | vDoc a => rfl

theorem matchesFilter_optEq (d : Doc) (k : String) (o : Option String) :
    matchesFilter d (optEqFilter k o) = passesEqFilterP d k o := by
  cases o with
  | none => rfl
  | some v =>
      by_cases hv : v == ""
      · simp [optEqFilter, passesEqFilterP, hv, matchesFilter]
      · simp only [optEqFilter, passesEqFilterP, hv, if_false]
        cases hg : Doc.get d k with
        | none => simp [matchesFilter, matchesCond, hg]
        | some w => simp [matchesFilter, matchesCond, hg]

theorem matchesFilter_optRegex_some (d : Doc) (q : String) (hq : ¬(q == "")) :
    matchesFilter d (optRegexFilter "title" (some q)) = titleContainsCI d q := by
  simp only [optRegexFilter, hq, if_false]
  cases hg : Doc.get d "title" with
  | none => simp [matchesFilter, matchesCond, hg, titleContainsCI]
  | some w => cases w <;> simp [matchesFilter, matchesCond, hg, titleContainsCI]

/- ------------------- checkout lemmas ------------------- -/

theorem no_id_match (d : Doc) (bound : Nat)
    (h : ∀ m, Doc.get d "_id" = some (Value.vOid m) → m < bound) :
    matchesFilter d (idFilter bound) = false := by
  cases hg : Doc.get d "_id" with
  | none => simp [matchesFilter, idFilter, matchesCond, hg]
  | some w =>
      have hb : ∀ m, w = Value.vOid m → m ≠ bound :=
        fun m hm => Nat.ne_of_lt (h m (hm ▸ hg))
      cases w <;> simp [matchesFilter, idFilter, matchesCond, hg, Value.beq]
      exact hb _ rfl

theorem checkout_result (s : Store) (p : CheckoutRequest)
    (hord : collWF s.order s.nextOid) :
    (checkout s p).2
      = Except.ok (serialize_doc (Doc.set (orderDocOf p) "_id" (Value.vOid s.nextOid))) := by
  have hm : matchesFilter (Doc.set (orderDocOf p) "_id" (Value.vOid s.nextOid))
      (idFilter s.nextOid) = true :=
    (matchesFilter_idFilter _ _).mpr (Doc.get_set_self _ _ _)
  have hfo : find_one (s.order ++ [Doc.set (orderDocOf p) "_id" (Value.vOid s.nextOid)])
      (idFilter s.nextOid)
      = some (Doc.set (orderDocOf p) "_id" (Value.vOid s.nextOid)) := by
    rw [find_one_append _ _ _ (fun d hd => no_id_match d s.nextOid (hord d hd))]
    simp [find_one, hm]
  simp only [checkout, create_document, Store.getColl, Store.setColl]
  rw [hfo]

/- ------------------- claim theorems ------------------- -/

/-- Claim C1: the code cannot distinguish the two error outcomes.  The
`HTTPException(404)` raised for a syntactically valid but absent product
id is caught by the handler's own blanket `except Exception` and
re-raised as the 400 response, so a valid-but-missing id yields
`invalidInput` exactly like a malformed id; only a found product
escapes.  This theorem evaluates `get_product` on the store `sC1`
(holding the single product with ObjectId 0): the valid absent id and
the malformed id produce the same 400-equivalent error. -/
theorem get_product_404_shadowed :
    get_product sC1 "000000000000000000000000"
        = Except.ok (serialize_doc [("_id", Value.vOid 0), ("title", Value.vStr "Logo Pack Deluxe")])
    ∧ get_product sC1 "00000000000000000000000a" = Except.error HErr.invalidInput
    ∧ get_product sC1 "not-an-objectid" = Except.error HErr.invalidInput :=
  ⟨rfl, rfl, rfl⟩

/-- Claim C2 counterexample: `serialize_doc` is not idempotent.  On the
stored document `d0` (an ObjectId and a timestamp) the first
application produces the id string of ObjectId 0, but the second
application recomputes `str(doc.get("_id"))` on a document whose `_id`
was already removed, overwriting `id` with the string "None". -/
theorem serialize_doc_twice_cex :
    serialize_doc (serialize_doc d0) ≠ serialize_doc d0 := by
  intro hcontra
  have h1 : Doc.get (serialize_doc (serialize_doc d0)) "id"
      = Doc.get (serialize_doc d0) "id" := by rw [hcontra]
  have h2 : Doc.get (serialize_doc (serialize_doc d0)) "id"
      = some (Value.vStr "None") := rfl
  have h3 : Doc.get (serialize_doc d0) "id" = some (Value.vStr (oidStr 0)) := rfl
  rw [h2, h3] at h1
  have h4 : "None" = oidStr 0 := by
    injection h1 with h1'
    injection h1'
  exact absurd h4 (by decide)

/-- Claim C2, amended: on any non-empty genuine document (distinct
keys), a second application of `serialize_doc` leaves every field
unchanged except `id`, which it overwrites with the string "None"
(because the first application removed `_id`); in particular the
timestamp conversion alone is idempotent (second conjunct), so the two
applications agree exactly on documents whose id already renders as
"None". -/
theorem spec_serialize_doc_twice (d : Doc) (h : d ≠ []) (hnd : Doc.keysNodup d) :
    serialize_doc (serialize_doc d) = Doc.set (serialize_doc d) "id" (Value.vStr "None")
    ∧ stringifyEntries (serialize_doc d) = serialize_doc d := by
  have hidem : stringifyEntries (serialize_doc d) = serialize_doc d := by
    rw [serialize_doc_of_ne_nil _ h]
    exact stringifyEntries_idem _
  have hgetid : Doc.get (serialize_doc d) "id"
      = some (Value.vStr (pyStr (Doc.get d "_id"))) := get_serialize_id d h
  have hs1ne : serialize_doc d ≠ [] := by
    intro hc
    rw [hc] at hgetid
    exact Option.noConfusion hgetid
  have hid : Doc.get (serialize_doc d) "_id" = none := by
    rw [serialize_doc_of_ne_nil _ h, get_stringifyEntries,
      Doc.get_erase_self _ _ (Doc.keysNodup_set d "id" _ hnd)]
    rfl
  refine ⟨?_, hidem⟩
  rw [serialize_doc_of_ne_nil _ hs1ne, hid,
    Doc.erase_of_get_none _ _
      (by rw [Doc.get_set_ne _ _ _ _ (by decide : ("id" : String) ≠ "_id")]; exact hid),
    stringifyEntries_set, hidem]
  rfl

/-- Witness for the amended claim C2, at the concrete document `d0`. -/
theorem spec_serialize_doc_twice_witness :
    serialize_doc (serialize_doc d0) = Doc.set (serialize_doc d0) "id" (Value.vStr "None") :=
  (spec_serialize_doc_twice d0 (by simp [d0]) (by simp [Doc.keysNodup, d0])).1

/-- Claim C3 counterexample: `featured_products` applies no sort.  On
the store `sC3`, whose two featured products are stored with ratings 1
then 5, the endpoint returns them in store order, which is not sorted
by rating descending. -/
theorem featured_not_sorted_cex :
    sortedByRatingDesc (featured_products sC3 8) = false := rfl

/-- Claim C3, amended: `featured_products` returns exactly the products
whose featured flag is the boolean true, serialized, in store order
with no sorting, truncated to the limit; with the route's default limit
8 this is the first 8 featured products, so at most 8 documents. -/
theorem spec_featured_products (s : Store) (limit : Int) :
    featured_products s limit = (mongoLimit limit (s.product.filter isFeatured)).map serialize_doc
    ∧ featured_products s 8 = ((s.product.filter isFeatured).take 8).map serialize_doc
    ∧ (featured_products s 8).length ≤ 8 := by
  have hbase : ∀ lim : Int, featured_products s lim
      = (mongoLimit lim (s.product.filter isFeatured)).map serialize_doc := by
    intro lim
    unfold featured_products mongoFind
    rw [List.filter_congr (fun x _ => matchesFeatured x)]
  have h2 : featured_products s 8 = ((s.product.filter isFeatured).take 8).map serialize_doc := by
    rw [hbase 8]
    rfl
  refine ⟨hbase limit, h2, ?_⟩
  rw [h2, List.length_map, List.length_take]
  exact Nat.min_le_left _ _

/-- Claim C4 counterexample: `approved_at` is not set exactly once.  On
the store `sW` (one project, in progress) a first approval at tick 1
sets `approved_at` to 1, and a second approval at tick 2 — a subsequent
operation on an already approved project — overwrites it with 2. -/
theorem approved_at_overwritten_cex :
    approvedAtOf ((approve_project sW pid0 1).1) 0 = some (Value.vDt 1)
    ∧ approvedAtOf ((approve_project (approve_project sW pid0 1).1 pid0 2).1) 0
        = some (Value.vDt 2)
    ∧ approvedAtOf ((approve_project (approve_project sW pid0 1).1 pid0 2).1) 0
        ≠ approvedAtOf ((approve_project sW pid0 1).1) 0 := by
  refine ⟨rfl, rfl, ?_⟩
  intro hcontra
  have h1 : some (Value.vDt 2) = some (Value.vDt 1) := hcontra
  have h2 : (2 : Nat) = 1 := by
    injection h1 with h1'
    injection h1'
  exact absurd h2 (by decide)

/-- Claim C4, amended: `approved_at` is written by every approve call —
re-approval overwrites it with the later time — while upload-draft and
add-comment (on any target project) never change it.  So the field,
once set, is never cleared, but it is not written exactly once. -/
theorem spec_approved_at_behavior (s : Store) (n : Nat) :
    (∀ pid url t, approvedAtOf ((upload_draft s pid url t).1) n = approvedAtOf s n)
    ∧ (∀ pid c t1 t2, approvedAtOf ((add_comment s pid c t1 t2).1) n = approvedAtOf s n)
    ∧ (∀ pid t d, parseOid pid = some n → projDoc s n = some d →
        approvedAtOf ((approve_project s pid t).1) n = some (Value.vDt t)) := by
  refine ⟨?_, ?_, ?_⟩
  · intro pid url t
    exact projField_upload_draft s pid url t n "approved_at" (by decide) (by decide)
  · intro pid c t1 t2
    exact projField_add_comment s pid c t1 t2 n "approved_at" (by decide) (by decide)
  · intro pid t d h1 h2
    unfold approvedAtOf projField
    rw [projDoc_approve s pid t n d h1 h2]
    exact approve_sets_approved_at t d

/-- Witness for the amended claim C4, on the store `sW`. -/
theorem spec_approved_at_behavior_witness :
    approvedAtOf ((upload_draft sW pid0 "u" 3).1) 0 = approvedAtOf sW 0
    ∧ approvedAtOf ((approve_project sW pid0 9).1) 0 = some (Value.vDt 9) :=
  ⟨(spec_approved_at_behavior sW 0).1 pid0 "u" 3,
   (spec_approved_at_behavior sW 0).2.2 pid0 9 projP0 rfl rfl⟩

/-- Claim C5: on an existing project, approve sets status to
"approved" and approved_at to the current time, whatever the current
status (no hypothesis about it is made), and returns the updated
serialized project; on a missing (validly formed) id it returns
`notFound` and leaves the store untouched. -/
theorem spec_approve_project (s : Store) (pid : String) (n t : Nat)
    (hpid : parseOid pid = some n) :
    (∀ d, projDoc s n = some d →
      (approve_project s pid t).2
          = Except.ok (serialize_doc (applyUpdate (approveUpdate t) d))
      ∧ statusOf ((approve_project s pid t).1) n = some (Value.vStr "approved")
      ∧ approvedAtOf ((approve_project s pid t).1) n = some (Value.vDt t))
    ∧ (projDoc s n = none →
      (approve_project s pid t).2 = Except.error HErr.notFound
      ∧ (approve_project s pid t).1 = s) := by
  constructor
  · intro d hd
    refine ⟨approve_project_ok s pid t n d hpid hd, ?_, ?_⟩
    · unfold statusOf projField
      rw [projDoc_approve s pid t n d hpid hd]
      exact approve_sets_status t d
    · unfold approvedAtOf projField
      rw [projDoc_approve s pid t n d hpid hd]
      exact approve_sets_approved_at t d
  · intro hd
    exact approve_project_missing s pid t n hpid hd

/-- Witness for claim C5: approving the project of `sW` at tick 7, and
approving a missing id on the empty store. -/
theorem spec_approve_project_witness :
    ((approve_project sW pid0 7).2
        = Except.ok (serialize_doc (applyUpdate (approveUpdate 7) projP0))
      ∧ statusOf ((approve_project sW pid0 7).1) 0 = some (Value.vStr "approved")
      ∧ approvedAtOf ((approve_project sW pid0 7).1) 0 = some (Value.vDt 7))
    ∧ ((approve_project sEmpty pid0 7).2 = Except.error HErr.notFound
      ∧ (approve_project sEmpty pid0 7).1 = sEmpty) :=
  ⟨(spec_approve_project sW pid0 0 7 rfl).1 projP0 rfl,
   (spec_approve_project sEmpty pid0 0 7 rfl).2 rfl⟩

/-- Claim C6: checkout synthesizes the order purely from the request:
status is the constant "paid", the subtotal is echoed unchanged, the
download links are `/downloads/{product_id}.zip` in item order (one per
item), the invoice path is the constant mock path, and the response is
unchanged under arbitrary replacement of the product collection  — no
product lookup is performed. -/
theorem spec_checkout (s : Store) (p : CheckoutRequest)
    (hwf : CheckoutRequest.wf p) (hord : collWF s.order s.nextOid) :
    (∃ d, (checkout s p).2 = Except.ok d
      ∧ Doc.get d "status" = some (Value.vStr "paid")
      ∧ Doc.get d "subtotal" = some (Value.vNum p.subtotal)
      ∧ Doc.get d "download_links"
          = some (Value.vList (p.items.map
              (fun i => Value.vStr ("/downloads/" ++ i.product_id ++ ".zip"))))
      ∧ Doc.get d "invoice_url" = some (Value.vStr "/invoices/mock.pdf")
      ∧ (∀ ps, (checkout { s with product := ps } p).2 = (checkout s p).2)) := by
  refine ⟨serialize_doc (Doc.set (orderDocOf p) "_id" (Value.vOid s.nextOid)),
    checkout_result s p hord, ?_, ?_, ?_, ?_,
    fun ps => by rw [checkout_result { s with product := ps } p hord, checkout_result s p hord]⟩
  · rw [get_serialize_ne _ _ (by decide) (by decide),
      Doc.get_set_ne _ _ _ _ (by decide : ("_id" : String) ≠ "status")]
    rfl
  · rw [get_serialize_ne _ _ (by decide) (by decide),
      Doc.get_set_ne _ _ _ _ (by decide : ("_id" : String) ≠ "subtotal")]
    rfl
  · rw [get_serialize_ne _ _ (by decide) (by decide),
      Doc.get_set_ne _ _ _ _ (by decide : ("_id" : String) ≠ "download_links")]
    rfl
  · rw [get_serialize_ne _ _ (by decide) (by decide),
      Doc.get_set_ne _ _ _ _ (by decide : ("_id" : String) ≠ "invoice_url")]
    rfl

/-- Witness for claim C6: the spec's own checkout example (one item
"p1") on the empty store. -/
theorem spec_checkout_witness :
    ∃ d, (checkout sEmpty payC6).2 = Except.ok d
      ∧ Doc.get d "status" = some (Value.vStr "paid")
      ∧ Doc.get d "subtotal" = some (Value.vNum payC6.subtotal)
      ∧ Doc.get d "download_links"
          = some (Value.vList (payC6.items.map
              (fun i => Value.vStr ("/downloads/" ++ i.product_id ++ ".zip"))))
      ∧ Doc.get d "invoice_url" = some (Value.vStr "/invoices/mock.pdf")
      ∧ (∀ ps, (checkout { sEmpty with product := ps } payC6).2 = (checkout sEmpty payC6).2) :=
  spec_checkout sEmpty payC6
    ⟨by
      intro i hi
      simp only [payC6, List.mem_singleton] at hi
      subst hi
      exact ⟨Or.inl rfl, by decide⟩,
     rfl⟩
    (by
      intro d hd
      simp [sEmpty] at hd)

/-- Claim C7: with a non-empty free-text query `q`, `list_products`
returns exactly the serialized products that pass the other filters and
whose title contains `q` as a case-insensitive substring, in store
order up to the limit.  (The title matching itself is the spec-modelled
semantics of the `$regex`/`$options:"i"` filter, see `containsCI`.) -/
theorem spec_list_products_query (s : Store) (cat sty col : Option String) (q : String)
    (limit : Int) (hq : q ≠ "") :
    list_products s cat sty col (some q) limit
      = mongoLimit limit
          ((s.product.filter
            (fun d => passesBaseFilters d cat sty col && titleContainsCI d q)).map
              serialize_doc) := by
  have hq' : ¬(q == "") := by simpa using hq
  have hpred : ∀ d : Doc,
      matchesFilter d (optEqFilter "category" cat ++ optEqFilter "style" sty ++
        optEqFilter "color" col ++ optRegexFilter "title" (some q))
      = (passesBaseFilters d cat sty col && titleContainsCI d q) := by
    intro d
    rw [matchesFilter_append, matchesFilter_append, matchesFilter_append,
      matchesFilter_optEq, matchesFilter_optEq, matchesFilter_optEq,
      matchesFilter_optRegex_some _ _ hq']
    rfl
  unfold list_products get_documents mongoFind
  rw [mongoLimit_map]
  have hcoll : Store.getColl s "product" = s.product := rfl
  rw [hcoll, List.filter_congr (fun d _ => hpred d)]

/-- Witness for claim C7: the spec's example, `q = "logo"` matches the
product titled "Logo Pack Deluxe" case-insensitively but not the one
titled "Icon Set". -/
theorem spec_list_products_query_witness :
    list_products sLP none none none (some "logo") 24 = [serialize_doc prodLogo] := by
  rw [spec_list_products_query sLP none none none "logo" 24 (by decide)]
  rfl

/-- Claim C8: upload-draft appends `{url, uploaded_at}` to the target
project's drafts and refreshes `updated_at`, returning the updated
serialized project (first conjunct: a single successful call, which
keeps the existing prefix `l0` intact — nothing is removed or
reordered); folding any list of sequential calls appends their entries
in call order (second conjunct), so starting from empty drafts the
sequence has exactly one entry per call, in call order (third
conjunct). -/
theorem spec_upload_draft_appends (s : Store) (pid : String) (n : Nat) (d : Doc)
    (l0 : List Value) (calls : List (String × Nat))
    (hpid : parseOid pid = some n) (hd : projDoc s n = some d)
    (hdr : Doc.get d "drafts" = some (Value.vList l0)) :
    (∀ url t,
      (upload_draft s pid url t).2
          = Except.ok (serialize_doc (applyUpdate (draftUpdate url t) d))
      ∧ Doc.get (applyUpdate (draftUpdate url t) d) "drafts"
          = some (Value.vList (l0 ++ [draftEntry url t]))
      ∧ Doc.get (applyUpdate (draftUpdate url t) d) "updated_at" = some (Value.vDt t))
    ∧ (∃ d2, projDoc (runUploads s pid calls) n = some d2
        ∧ Doc.get d2 "drafts"
            = some (Value.vList (l0 ++ calls.map (fun c => draftEntry c.1 c.2))))
    ∧ (l0 = [] →
        ∃ d2, projDoc (runUploads s pid calls) n = some d2
          ∧ Doc.get d2 "drafts"
              = some (Value.vList (calls.map (fun c => draftEntry c.1 c.2)))) := by
  refine ⟨?_, ?_, ?_⟩
  · intro url t
    exact ⟨upload_draft_ok s pid url t n d hpid hd,
      draft_appends url t d l0 hdr, draft_sets_updated_at url t d⟩
  · exact runUploads_drafts calls s pid n d l0 hpid hd hdr
  · intro hl0
    subst hl0
    simpa using runUploads_drafts calls s pid n d [] hpid hd hdr

/-- Witness for claim C8: two sequential uploads to the fresh project
of `sW` leave exactly the two draft entries, in call order. -/
theorem spec_upload_draft_appends_witness :
    ∃ d2, projDoc (runUploads sW pid0 [("u1", 1), ("u2", 2)]) 0 = some d2
      ∧ Doc.get d2 "drafts"
          = some (Value.vList [draftEntry "u1" 1, draftEntry "u2" 2]) :=
  (spec_upload_draft_appends sW pid0 0 projP0 [] [("u1", 1), ("u2", 2)]
    rfl rfl rfl).2.2 rfl

/-- Claim C9: project status only moves forward.  Upload-draft and
add-comment never change any project's status (first two conjuncts);
starting from "in_progress", any sequence of workflow operations leaves
the status in {in_progress, approved} (third conjunct); and once
"approved", every sequence of workflow operations keeps it "approved"
(fourth conjunct). -/
theorem spec_status_forward (s : Store) (n : Nat) (ops : List POp) :
    (∀ pid url t, statusOf ((upload_draft s pid url t).1) n = statusOf s n)
    ∧ (∀ pid c t1 t2, statusOf ((add_comment s pid c t1 t2).1) n = statusOf s n)
    ∧ (statusOf s n = some (Value.vStr "in_progress") →
        statusOf (runOps s ops) n = some (Value.vStr "in_progress")
        ∨ statusOf (runOps s ops) n = some (Value.vStr "approved"))
    ∧ (statusOf s n = some (Value.vStr "approved") →
        statusOf (runOps s ops) n = some (Value.vStr "approved")) := by
  refine ⟨?_, ?_, ?_, ?_⟩
  · intro pid url t
    exact projField_upload_draft s pid url t n "status" (by decide) (by decide)
  · intro pid c t1 t2
    exact projField_add_comment s pid c t1 t2 n "status" (by decide) (by decide)
  · intro h
    exact runOps_status_closed ops s n (Or.inl h)
  · intro h
    exact runOps_status_absorbing ops s n h

/-- Witness for claim C9: on the store `sW` (project in progress), an
approve keeps the status in the two-element range, and after approval a
draft upload leaves it "approved". -/
theorem spec_status_forward_witness :
    (statusOf (runOps sW [POp.approve pid0 1]) 0 = some (Value.vStr "in_progress")
      ∨ statusOf (runOps sW [POp.approve pid0 1]) 0 = some (Value.vStr "approved"))
    ∧ statusOf (runOps (approve_project sW pid0 1).1 [POp.draft pid0 "u" 2]) 0
        = some (Value.vStr "approved") :=
  ⟨(spec_status_forward sW 0 [POp.approve pid0 1]).2.2.1 rfl,
   (spec_status_forward (approve_project sW pid0 1).1 0 [POp.draft pid0 "u" 2]).2.2.2 rfl⟩

/-- Claim C10: an empty-string filter parameter is truthy-false in the
handlers, so it builds no filter condition and the listing is
unfiltered on that field, exactly as if the parameter were absent
(first six conjuncts, one per parameter of `list_products` and
`list_projects`); with every parameter the empty string the listings
return the whole collection (last two conjuncts), so no request can
select exactly the documents whose field equals the empty string. -/
theorem spec_empty_string_filters (s : Store) (cat sty col q em st : Option String)
    (limit : Int) :
    (list_products s (some "") sty col q limit = list_products s none sty col q limit)
    ∧ (list_products s cat (some "") col q limit = list_products s cat none col q limit)
    ∧ (list_products s cat sty (some "") q limit = list_products s cat sty none q limit)
    ∧ (list_products s cat sty col (some "") limit = list_products s cat sty col none limit)
    ∧ (list_projects s (some "") st limit = list_projects s none st limit)
    ∧ (list_projects s em (some "") limit = list_projects s em none limit)
    ∧ (list_products s (some "") (some "") (some "") (some "") limit
        = (mongoLimit limit s.product).map serialize_doc)
    ∧ (list_projects s (some "") (some "") limit
        = (mongoLimit limit s.project).map serialize_doc) := by
  refine ⟨rfl, rfl, rfl, rfl, rfl, rfl, ?_, ?_⟩
  · show (mongoLimit limit (s.product.filter (fun d => matchesFilter d []))).map serialize_doc
        = (mongoLimit limit s.product).map serialize_doc
    rw [show s.product.filter (fun d => matchesFilter d []) = s.product from
      List.filter_true s.product]
  · show (mongoLimit limit (s.project.filter (fun d => matchesFilter d []))).map serialize_doc
        = (mongoLimit limit s.project).map serialize_doc
    rw [show s.project.filter (fun d => matchesFilter d []) = s.project from
      List.filter_true s.project]
